import Mathlib

/-!
Shallow embedding of the `unarch` archive-extraction tool (`src/main.go`)
together with models of the Go standard-library path helpers it calls
(`path/filepath.Ext`, `Base`, `Dir`, `Clean`, `Join` on Unix, where the only
path separator is the slash character).

Files are modelled as byte lists (`List Nat`), file names and paths as
`String`. Filesystem effects of the extraction strategies are modelled as
explicit action lists; external process invocations are modelled as command
descriptions (tool name plus argument list).
-/

namespace Unarch

/-! ## Go `path/filepath` helpers (Unix rules) -/

/-- Model of Go `filepath.Ext`: the suffix of the final path element that
starts at its last dot, or the empty string if there is none. We scan the
reversed character list, accumulating the suffix seen so far. -/
def extAux : List Char → List Char → String
  | [], _ => ""
  | c :: rest, acc =>
    if c = '/' then ""
    else if c = '.' then String.mk ('.' :: acc)
    else extAux rest (c :: acc)

def filepathExt (path : String) : String :=
  extAux path.data.reverse []

/-- Model of Go `filepath.Base`: strip trailing slashes, then keep the part
after the last slash; empty input gives "." and an all-slash input gives "/". -/
def goBase (path : String) : String :=
  if path = "" then "."
  else
    let stripped := (path.data.reverse.dropWhile (fun c => c == '/')).reverse
    let last := (stripped.reverse.takeWhile (fun c => c != '/')).reverse
    if last = [] then "/"
    else String.mk last

/-- Split a character list on the slash character. -/
def splitOnSlashAux : List Char → List Char → List (List Char)
  | [], cur => [cur.reverse]
  | c :: rest, cur =>
    if c = '/' then cur.reverse :: splitOnSlashAux rest []
    else splitOnSlashAux rest (c :: cur)

def splitOnSlash (l : List Char) : List (List Char) :=
  splitOnSlashAux l []

/-- The component-stack pass of Go `filepath.Clean`: drop empty and dot
components; a dot-dot component pops the previous real component, is dropped
at the root of a rooted path, and is kept when there is nothing to pop in a
relative path. -/
def cleanComps (rooted : Bool) : List (List Char) → List (List Char) → List (List Char)
  | [], acc => acc.reverse
  | c :: rest, acc =>
    if c = [] ∨ c = ['.'] then cleanComps rooted rest acc
    else if c = ['.', '.'] then
      match acc with
      | [] =>
        if rooted then cleanComps rooted rest []
        else cleanComps rooted rest [['.', '.']]
      | top :: accRest =>
        if top = ['.', '.'] then cleanComps rooted rest (c :: top :: accRest)
        else cleanComps rooted rest accRest
    else cleanComps rooted rest (c :: acc)

/-- Interleave components with slashes. -/
def joinComps : List (List Char) → List Char
  | [] => []
  | [c] => c
  | c :: rest => c ++ '/' :: joinComps rest

/-- Model of Go `filepath.Clean` (Unix): shortest lexically equivalent path. -/
def cleanPath (path : String) : String :=
  if path = "" then "."
  else
    let cs := path.data
    let rooted := cs.head? = some '/'
    let out := cleanComps rooted (splitOnSlash cs) []
    if rooted then String.mk ('/' :: joinComps out)
    else if out = [] then "."
    else String.mk (joinComps out)

/-- Model of Go `filepath.Join` on two elements: skip empty elements, join the
rest with a slash and `Clean` the result. -/
def joinPath (a b : String) : String :=
  if a ≠ "" then cleanPath (a ++ "/" ++ b)
  else if b ≠ "" then cleanPath b
  else ""

/-- Model of Go `filepath.Dir`: everything up to and including the final
slash, cleaned; a path with no slash gives ".". -/
def goDir (path : String) : String :=
  let keep := (path.data.reverse.dropWhile (fun c => c != '/')).reverse
  cleanPath (String.mk keep)

/-! ## Magic-byte signatures (from `detectArchiveType` and `untar`) -/

def zipMagic : List Nat := [0x50, 0x4B]
def gzipMagic : List Nat := [0x1F, 0x8B]
def bzip2Magic : List Nat := [0x42, 0x5A, 0x68]
def xzMagic : List Nat := [0xFD, 0x37, 0x7A, 0x58, 0x5A, 0x00]
def rarMagic : List Nat := [0x52, 0x61, 0x72, 0x21]
def sevenZMagic : List Nat := [0x37, 0x7A, 0xBC, 0xAF, 0x27, 0x1C]
def zstdMagic : List Nat := [0x28, 0xB5, 0x2F, 0xFD]

/-! ## Reading the sniff buffer -/

inductive ReadStatus
  | eof
  | otherErr
deriving DecidableEq

/-- Model of a single `f.Read(buf)` on a regular file whose full contents are
`content`, with a zero-initialised buffer of length `bufLen`: the read returns
the first `bufLen` bytes and reports `io.EOF` exactly when the file is empty;
no other error can arise from reading a regular file's own bytes. -/
def fileReadStatus (content : List Nat) : Option ReadStatus :=
  if content.isEmpty then some .eof else none

/-- The buffer after the read: the bytes read, with the untouched
zero-initialised cells behind them (Go `make([]byte, n)` zero-fills). -/
def readBuf (bufLen : Nat) (content : List Nat) : List Nat :=
  content.take bufLen ++ List.replicate (bufLen - content.length) 0

/-! ## The classifier `detectArchiveType` -/

inductive DetectErr
  | unknownArchiveType
  | readFailure
deriving DecidableEq

/-- Embedding of `detectArchiveType` (src/main.go:253-306): read up to 16
bytes, tolerate `io.EOF`, match the magic signatures in source order, and
fall back to a switch on `filepath.Ext` of the file name. -/
def detectArchiveType (content : List Nat) (filePath : String) : Except DetectErr String :=
  let st := fileReadStatus content
  if st ≠ none ∧ st ≠ some .eof then .error .readFailure
  else
    let buf := readBuf 16 content
    if zipMagic.isPrefixOf buf then .ok "zip"
    else if gzipMagic.isPrefixOf buf then .ok "tar.gz"
    else if bzip2Magic.isPrefixOf buf then .ok "tar.bz2"
    else if xzMagic.isPrefixOf buf then .ok "tar.xz"
    else if rarMagic.isPrefixOf buf then .ok "rar"
    else if sevenZMagic.isPrefixOf buf then .ok "7z"
    else if zstdMagic.isPrefixOf buf then .ok "tar.zst"
    else
      match filepathExt filePath with
      | ".gz" => .ok "gz"
      | ".bz2" => .ok "bz2"
      | ".xz" => .ok "xz"
      | ".lz" => .ok "lz"
      | ".lzma" => .ok "lzma"
      | ".zst" => .ok "zst"
      | ".tar" => .ok "tar"
      | ".tar.lz" => .ok "tar.lz"
      | ".tar.lzma" => .ok "tar.lzma"
      | _ => .error .unknownArchiveType

/-- Specification-side view of the signature switch: which tag, if any, the
magic-byte cascade assigns to a sniff buffer. -/
def sigTag (buf : List Nat) : Option String :=
  if zipMagic.isPrefixOf buf then some "zip"
  else if gzipMagic.isPrefixOf buf then some "tar.gz"
  else if bzip2Magic.isPrefixOf buf then some "tar.bz2"
  else if xzMagic.isPrefixOf buf then some "tar.xz"
  else if rarMagic.isPrefixOf buf then some "rar"
  else if sevenZMagic.isPrefixOf buf then some "7z"
  else if zstdMagic.isPrefixOf buf then some "tar.zst"
  else none

/-- Specification-side view of the extension fallback switch. -/
def extTag (filePath : String) : Option String :=
  match filepathExt filePath with
  | ".gz" => some "gz"
  | ".bz2" => some "bz2"
  | ".xz" => some "xz"
  | ".lz" => some "lz"
  | ".lzma" => some "lzma"
  | ".zst" => some "zst"
  | ".tar" => some "tar"
  | ".tar.lz" => some "tar.lz"
  | ".tar.lzma" => some "tar.lzma"
  | _ => none

/-! ## Filesystem actions and archive entries -/

/-- A filesystem effect of an extraction strategy. `mkdirAll` records the
permission argument passed to `os.MkdirAll`; `createFile` records the mode
the file is opened with and the bytes copied into it. -/
inductive FsAction
  | mkdirAll (path : String) (perm : Nat)
  | createFile (path : String) (perm : Nat) (content : List Nat)
deriving DecidableEq

/-- `os.ModePerm` = 0o777. -/
def goModePerm : Nat := 0o777

/-- The permission argument of Go `os.Create`, which is
`OpenFile(name, O_RDWR|O_CREATE|O_TRUNC, 0666)`. -/
def goCreateMode : Nat := 0o666

/-- Go `archive/tar` type flag for a directory entry, byte value of the
character 5. -/
def tarTypeDir : Nat := 0x35

/-- Go `archive/tar` type flag for a regular file entry, byte value of the
character 0. -/
def tarTypeReg : Nat := 0x30

/-- A tar entry as delivered by `tar.Reader.Next`: header name, type flag
byte, header permission mode, and the entry's byte stream. -/
structure TarEntry where
  name : String
  typeflag : Nat
  mode : Nat
  content : List Nat
deriving DecidableEq

/-- A zip entry as delivered by `zip.Reader`: stored name, directory marker
(`f.FileInfo().IsDir()`), stored mode (`f.Mode()`), and decompressed bytes. -/
structure ZipEntry where
  name : String
  isDir : Bool
  mode : Nat
  content : List Nat
deriving DecidableEq

/-- An external process invocation: tool name and argument list. -/
structure Command where
  tool : String
  args : List String
deriving DecidableEq

/-! ## The streaming-tar strategy `untar` -/

/-- The decompression filter `untar` wraps around the source stream. -/
inductive Filter
  | gzipFilter
  | bzip2Filter
  | xzFilter
  | zstdFilter
  | noFilter
deriving DecidableEq

/-- Embedding of the filter selection in `untar` (src/main.go:347-375): read
the first 6 bytes of the source into a zeroed buffer (ignoring any read
error), seek back, and pick the decompressing reader by magic bytes,
defaulting to the plain file stream. -/
def selectFilter (content : List Nat) : Filter :=
  let buf := readBuf 6 content
  if gzipMagic.isPrefixOf buf then .gzipFilter
  else if bzip2Magic.isPrefixOf buf then .bzip2Filter
  else if xzMagic.isPrefixOf buf then .xzFilter
  else if zstdMagic.isPrefixOf buf then .zstdFilter
  else .noFilter

/-- Embedding of the per-entry switch in `untar` (src/main.go:386-401): a
directory entry runs `os.MkdirAll(target, os.ModePerm)`; a regular-file
entry runs `os.MkdirAll(filepath.Dir(target), os.ModePerm)`, then
`os.Create(target)` and copies the entry bytes; any other type flag does
nothing. -/
def untarEntryActions (dest : String) (e : TarEntry) : List FsAction :=
  let target := joinPath dest e.name
  if e.typeflag = tarTypeDir then [.mkdirAll target goModePerm]
  else if e.typeflag = tarTypeReg then
    [.mkdirAll (goDir target) goModePerm, .createFile target goCreateMode e.content]
  else []

/-- The entry loop of `untar` over the already-decoded tar entry stream. -/
def untarActions (dest : String) (entries : List TarEntry) : List FsAction :=
  entries.flatMap (untarEntryActions dest)

/-! ## The container strategy `unzip` -/

/-- Embedding of the per-entry body of `unzip` (src/main.go:315-336): a
directory entry runs `os.MkdirAll(fpath, os.ModePerm)`; any other entry runs
`os.MkdirAll(filepath.Dir(fpath), os.ModePerm)`, opens the output with
`os.OpenFile(fpath, O_WRONLY|O_CREATE|O_TRUNC, f.Mode())`, and copies the
decompressed bytes. -/
def unzipEntryActions (dest : String) (f : ZipEntry) : List FsAction :=
  let fpath := joinPath dest f.name
  if f.isDir then [.mkdirAll fpath goModePerm]
  else [.mkdirAll (goDir fpath) goModePerm, .createFile fpath f.mode f.content]

/-- The entry loop of `unzip` over the container's entries in stored order. -/
def unzipActions (dest : String) (entries : List ZipEntry) : List FsAction :=
  entries.flatMap (unzipEntryActions dest)

/-! ## The single-file strategy `extractSingleFile` -/

/-- The plan produced by a successful `extractSingleFile`: the external
decompressor command, and the path of the newly created file its standard
output is redirected to. -/
structure SingleFilePlan where
  cmd : Command
  outPath : String
deriving DecidableEq

/-- Embedding of `extractSingleFile` (src/main.go:406-429): pick the external
tool by tag (`gunzip`/`bunzip2`/`unxz`/`unzstd`, each with `-k -c src`),
failing for any other tag before any file is created; on success the output
file is `filepath.Join(dest, filepath.Base(src))` and receives the command's
standard output. -/
def extractSingleFile (src dest typ : String) : Except String SingleFilePlan :=
  let cmd : Except String Command :=
    match typ with
    | "gz" => .ok ⟨"gunzip", ["-k", "-c", src]⟩
    | "bz2" => .ok ⟨"bunzip2", ["-k", "-c", src]⟩
    | "xz" => .ok ⟨"unxz", ["-k", "-c", src]⟩
    | "zst" => .ok ⟨"unzstd", ["-k", "-c", src]⟩
    | _ => .error "unsupported single file compression type"
  match cmd with
  | .error e => .error e
  | .ok c => .ok ⟨c, joinPath dest (goBase src)⟩

/-! ## The external-archiver strategy and the dispatcher in `main` -/

/-- Embedding of `extractWith7z` (src/main.go:431-436). -/
def extractWith7z (src dest : String) : Command :=
  ⟨"7z", ["x", src, "-o" ++ dest, "-y"]⟩

/-- The abstract input to an extraction: the source file's raw bytes, plus
the entry streams the delegated tar/zip decoders produce from it. -/
structure ArchiveInput where
  content : List Nat
  tarEntries : List TarEntry
  zipEntries : List ZipEntry

/-- The outcome of dispatching one tag in `main`'s switch. -/
inductive ExtractResult
  | zipRes (actions : List FsAction)
  | tarRes (filter : Filter) (actions : List FsAction)
  | singleRes (r : Except String SingleFilePlan)
  | sevenZRes (cmd : Command)
  | unsupported

/-- Embedding of the tag switch in `main` (src/main.go:232-244): `zip` goes
to `unzip`; the seven tar-family tags go to `untar` (which receives only the
paths, never the tag); the six single-file tags go to `extractSingleFile`;
`7z` and `rar` go to `extractWith7z`; anything else is unsupported. -/
def extractDispatch (tag : String) (inp : ArchiveInput) (src dest : String) : ExtractResult :=
  match tag with
  | "zip" => .zipRes (unzipActions dest inp.zipEntries)
  | "tar" | "tar.gz" | "tar.bz2" | "tar.xz" | "tar.lz" | "tar.lzma" | "tar.zst" =>
    .tarRes (selectFilter inp.content) (untarActions dest inp.tarEntries)
  | "gz" | "bz2" | "xz" | "lz" | "lzma" | "zst" => .singleRes (extractSingleFile src dest tag)
  | "7z" | "rar" => .sevenZRes (extractWith7z src dest)
  | _ => .unsupported

/-- The strategy family a tag is routed to. -/
inductive Strategy
  | unzipStrat
  | untarStrat
  | singleFileStrat
  | sevenZStrat
deriving DecidableEq

/-- Which strategy `extractDispatch` selects for a tag, if any. -/
def dispatchStrategy (tag : String) : Option Strategy :=
  match tag with
  | "zip" => some .unzipStrat
  | "tar" | "tar.gz" | "tar.bz2" | "tar.xz" | "tar.lz" | "tar.lzma" | "tar.zst" =>
    some .untarStrat
  | "gz" | "bz2" | "xz" | "lz" | "lzma" | "zst" => some .singleFileStrat
  | "7z" | "rar" => some .sevenZStrat
  | _ => none

/-- The seven tags `main` routes to the streaming-tar strategy. -/
def tarFamilyTags : List String :=
  ["tar", "tar.gz", "tar.bz2", "tar.xz", "tar.lz", "tar.lzma", "tar.zst"]

/-- Outcome of the classification phase of `main` (src/main.go:214-250): on a
detection error the process prints the error and exits with code 1 without
invoking any extraction strategy; otherwise the tag's strategy runs. -/
structure MainOutcome where
  exitCode : Nat
  errReported : Bool
  strategy : Option Strategy
deriving DecidableEq

/-- Embedding of `main`'s control flow up to strategy selection: detection
failure exits 1 before any extraction; an unsupported tag also exits 1; a
dispatched tag hands control to its strategy. -/
def runMain (content : List Nat) (path : String) : MainOutcome :=
  match detectArchiveType content path with
  | .error _ => ⟨1, true, none⟩
  | .ok tag =>
    match dispatchStrategy tag with
    | none => ⟨1, true, none⟩
    | some s => ⟨0, false, some s⟩

/-! ## Supporting lemmas -/

/-- `extAux` yields either the empty string or a dot followed by a dot-free
tail: scanning stops at the first dot found from the right. -/
lemma extAux_shape (l : List Char) :
    ∀ acc, '.' ∉ acc →
      extAux l acc = "" ∨ ∃ t, extAux l acc = String.mk ('.' :: t) ∧ '.' ∉ t := by
  induction l with
  | nil => intro acc _; left; rfl
  | cons c rest ih =>
    intro acc hacc
    by_cases hs : c = '/'
    · left; simp [extAux, hs]
    · by_cases hd : c = '.'
      · right
        exact ⟨acc, by simp [extAux, hs, hd], hacc⟩
      · have : extAux (c :: rest) acc = extAux rest (c :: acc) := by
          simp [extAux, hs, hd]
        rw [this]
        refine ih (c :: acc) ?_
        intro hmem
        rcases List.mem_cons.mp hmem with h | h
        · exact hd h.symm
        · exact hacc h

/-- The result of `filepath.Ext` contains no dot beyond its leading one, so
it is never a double extension such as ".tar.lz" or ".tar.lzma". -/
lemma filepathExt_no_double (name : String) :
    filepathExt name ≠ ".tar.lz" ∧ filepathExt name ≠ ".tar.lzma" := by
  unfold filepathExt
  rcases extAux_shape name.data.reverse [] (by simp) with h | ⟨t, h, ht⟩ <;> rw [h]
  · constructor <;> decide
  · constructor <;> intro hc <;>
    · have hd := congrArg String.data hc
      simp only [String.data] at hd
      apply ht
      rw [List.cons.injEq] at hd
      simp [hd.2]

/-- `detectArchiveType` never fails on the sniff read itself (the only
status a regular-file read can report is `io.EOF`, which the code
tolerates), and it resolves exactly as the signature cascade followed by the
extension fallback. -/
lemma detect_spec (content : List Nat) (name : String) :
    detectArchiveType content name =
      match sigTag (readBuf 16 content) with
      | some t => .ok t
      | none =>
        match extTag name with
        | some t => .ok t
        | none => .error .unknownArchiveType := by
  have hst : ¬(fileReadStatus content ≠ none ∧ fileReadStatus content ≠ some ReadStatus.eof) := by
    unfold fileReadStatus; split <;> simp
  simp only [detectArchiveType, sigTag, extTag, if_neg hst]
  split_ifs <;> try rfl
  split <;> rfl

/-- Claim C1: every file starting with one of the listed magic prefixes is
classified by that signature alone — the tag is the one in the signature
table, for every trailing byte sequence and every file name. -/
theorem detect_magic_priority :
    (∀ rest name, detectArchiveType (zipMagic ++ rest) name = .ok "zip") ∧
    (∀ rest name, detectArchiveType (gzipMagic ++ rest) name = .ok "tar.gz") ∧
    (∀ rest name, detectArchiveType (bzip2Magic ++ rest) name = .ok "tar.bz2") ∧
    (∀ rest name, detectArchiveType (xzMagic ++ rest) name = .ok "tar.xz") ∧
    (∀ rest name, detectArchiveType (rarMagic ++ rest) name = .ok "rar") ∧
    (∀ rest name, detectArchiveType (sevenZMagic ++ rest) name = .ok "7z") ∧
    (∀ rest name, detectArchiveType (zstdMagic ++ rest) name = .ok "tar.zst") := by
  refine ⟨?_, ?_, ?_, ?_, ?_, ?_, ?_⟩ <;>
  · intro rest name
    simp [detectArchiveType, fileReadStatus, readBuf, zipMagic, gzipMagic,
      bzip2Magic, xzMagic, rarMagic, sevenZMagic, zstdMagic, List.isPrefixOf]

/-- Claim C2 (code bug): the extension cases ".tar.lz" and ".tar.lzma" in
`detectArchiveType` are dead — `filepath.Ext` only ever returns the suffix
after the final dot — so a signature-less file named "x.tar.lz" is
classified "lz", not "tar.lz" (and "x.tar.lzma" is classified "lzma"). -/
theorem detect_tar_lz_ext_eval :
    detectArchiveType [0] "x.tar.lz" = .ok "lz" ∧
    detectArchiveType [0] "x.tar.lzma" = .ok "lzma" ∧
    filepathExt "x.tar.lz" = ".lz" ∧
    filepathExt "x.tar.lzma" = ".lzma" := by
  refine ⟨rfl, rfl, rfl, rfl⟩

/-- The tags "tar.lz" and "tar.lzma" are unreachable outcomes of the
classifier: no input file at all is assigned them, because the signature
cascade never produces them and `filepath.Ext` never returns a double
extension. -/
lemma detect_never_tar_lz (content : List Nat) (name : String) :
    (detectArchiveType content name = .ok "tar.lz") = False ∧
    (detectArchiveType content name = .ok "tar.lzma") = False := by
  have hext := filepathExt_no_double name
  rw [detect_spec]
  constructor <;>
  · simp only [eq_iff_iff, iff_false]
    split
    · rename_i t heq
      unfold sigTag at heq
      split_ifs at heq <;> (try (rw [Option.some.injEq] at heq; subst heq)) <;>
        first | decide | simp_all
    · split
      · rename_i t heq
        intro hc
        rw [Except.ok.injEq] at hc
        subst hc
        unfold extTag at heq
        split at heq <;> simp_all
      · simp

/-- Claim C3: the streaming-tar strategy picks its decompression filter from
the first 6 bytes of the source alone — equal 6-byte prefixes give equal
filters, each of the four magic prefixes selects its filter whatever
follows, anything else selects no filter — and the dispatcher sends every
tar-family tag to the same strategy, whose behaviour never depends on which
of those tags was passed. -/
theorem untar_filter_from_bytes :
    (∀ c1 c2 : List Nat, c1.take 6 = c2.take 6 → selectFilter c1 = selectFilter c2) ∧
    (∀ rest, selectFilter (gzipMagic ++ rest) = .gzipFilter) ∧
    (∀ rest, selectFilter (bzip2Magic ++ rest) = .bzip2Filter) ∧
    (∀ rest, selectFilter (xzMagic ++ rest) = .xzFilter) ∧
    (∀ rest, selectFilter (zstdMagic ++ rest) = .zstdFilter) ∧
    (∀ content, gzipMagic.isPrefixOf (readBuf 6 content) = false →
      bzip2Magic.isPrefixOf (readBuf 6 content) = false →
      xzMagic.isPrefixOf (readBuf 6 content) = false →
      zstdMagic.isPrefixOf (readBuf 6 content) = false →
      selectFilter content = .noFilter) ∧
    (∀ t1 ∈ tarFamilyTags, ∀ t2 ∈ tarFamilyTags, ∀ inp src dest,
      extractDispatch t1 inp src dest = extractDispatch t2 inp src dest) := by
  refine ⟨?_, ?_, ?_, ?_, ?_, ?_, ?_⟩
  · intro c1 c2 h
    have hlen : 6 - c1.length = 6 - c2.length := by
      have := congrArg List.length h
      simp only [List.length_take] at this
      omega
    have hb : readBuf 6 c1 = readBuf 6 c2 := by
      simp [readBuf, h, hlen]
    simp [selectFilter, hb]
  · intro rest
    simp [selectFilter, readBuf, gzipMagic, bzip2Magic, xzMagic, zstdMagic, List.isPrefixOf]
  · intro rest
    simp [selectFilter, readBuf, gzipMagic, bzip2Magic, xzMagic, zstdMagic, List.isPrefixOf]
  · intro rest
    simp [selectFilter, readBuf, gzipMagic, bzip2Magic, xzMagic, zstdMagic, List.isPrefixOf]
  · intro rest
    simp [selectFilter, readBuf, gzipMagic, bzip2Magic, xzMagic, zstdMagic, List.isPrefixOf]
  · intro content h1 h2 h3 h4
    simp [selectFilter, h1, h2, h3, h4]
  · intro t1 h1 t2 h2 inp src dest
    fin_cases h1 <;> fin_cases h2 <;> rfl

/-- Witness for C3 at two concrete tar-family tags and a concrete input. -/
theorem untar_filter_from_bytes_witness :
    ("tar.gz" ∈ tarFamilyTags) ∧ ("tar.zst" ∈ tarFamilyTags) ∧
    extractDispatch "tar.gz" ⟨[], [], []⟩ "a.tgz" "out" =
      extractDispatch "tar.zst" ⟨[], [], []⟩ "a.tgz" "out" :=
  ⟨by simp [tarFamilyTags], by simp [tarFamilyTags],
    untar_filter_from_bytes.2.2.2.2.2.2 "tar.gz" (by simp [tarFamilyTags])
      "tar.zst" (by simp [tarFamilyTags]) ⟨[], [], []⟩ "a.tgz" "out"⟩

/-- Claim C4: classification fails with the unknown-format error exactly
when neither a byte signature nor a recognised extension resolves, and in
that case `main` exits with code 1, reports the error, and invokes no
extraction strategy (so nothing is written to the destination). -/
theorem detect_unknown_iff :
    (∀ content name, detectArchiveType content name = .error .unknownArchiveType ↔
      sigTag (readBuf 16 content) = none ∧ extTag name = none) ∧
    (∀ content name, detectArchiveType content name = .error .unknownArchiveType →
      runMain content name = ⟨1, true, none⟩) := by
  constructor
  · intro content name
    rw [detect_spec]
    constructor
    · intro h
      rcases hs : sigTag (readBuf 16 content) with _ | t
      · rcases he : extTag name with _ | t
        · exact ⟨rfl, rfl⟩
        · rw [hs, he] at h; simp at h
      · rw [hs] at h; simp at h
    · rintro ⟨hs, he⟩
      rw [hs, he]
  · intro content name h
    unfold runMain
    rw [h]

/-- Witness for C4 at a file with an unknown 4-byte prefix and no
recognised extension. -/
theorem detect_unknown_iff_witness :
    detectArchiveType [9, 9, 9, 9] "noext" = .error .unknownArchiveType ∧
    runMain [9, 9, 9, 9] "noext" = ⟨1, true, none⟩ := by
  have h : detectArchiveType [9, 9, 9, 9] "noext" = .error .unknownArchiveType := by rfl
  exact ⟨h, detect_unknown_iff.2 [9, 9, 9, 9] "noext" h⟩

/-- Claim C5: the single-file strategy fails with the
unsupported-compression-type error for every tag outside {gz, bz2, xz, zst}
— before selecting any external tool or creating any file — and the
dispatcher does route the classifier-reachable tags "lz" and "lzma" to it,
where they produce exactly that error. -/
theorem single_file_unsupported :
    (∀ src dest typ, typ ∉ (["gz", "bz2", "xz", "zst"] : List String) →
      extractSingleFile src dest typ = .error "unsupported single file compression type") ∧
    dispatchStrategy "lz" = some .singleFileStrat ∧
    dispatchStrategy "lzma" = some .singleFileStrat ∧
    detectArchiveType [0] "a.lz" = .ok "lz" ∧
    detectArchiveType [0] "a.lzma" = .ok "lzma" ∧
    (∀ inp src dest, extractDispatch "lz" inp src dest =
      .singleRes (.error "unsupported single file compression type")) ∧
    (∀ inp src dest, extractDispatch "lzma" inp src dest =
      .singleRes (.error "unsupported single file compression type")) := by
  refine ⟨?_, rfl, rfl, rfl, rfl, fun inp src dest => rfl, fun inp src dest => rfl⟩
  intro src dest typ h
  simp only [List.mem_cons, List.not_mem_nil, or_false, not_or] at h
  obtain ⟨h1, h2, h3, h4⟩ := h
  simp only [extractSingleFile]

/-- Witness for C5 at the classifier-reachable tag "lzma". -/
theorem single_file_unsupported_witness :
    ("lzma" ∉ (["gz", "bz2", "xz", "zst"] : List String)) ∧
    extractSingleFile "a.lzma" "out" "lzma" =
      .error "unsupported single file compression type" :=
  ⟨by decide, single_file_unsupported.1 "a.lzma" "out" "lzma" (by decide)⟩

/-- Claim C6: for a file shorter than the 16-byte sniff buffer, classify
never fails on the read (EOF is tolerated); it matches signatures against
the partially filled zero-padded buffer, falls through to the extension
fallback when no signature fires, and reports the unknown-format error only
when the extension resolves nothing either. -/
theorem detect_short_file (content : List Nat) (name : String)
    (_h : content.length < 16) :
    detectArchiveType content name ≠ .error .readFailure ∧
    (∀ t, sigTag (readBuf 16 content) = some t → detectArchiveType content name = .ok t) ∧
    (sigTag (readBuf 16 content) = none →
      detectArchiveType content name =
        match extTag name with
        | some t => .ok t
        | none => .error .unknownArchiveType) ∧
    (detectArchiveType content name = .error .unknownArchiveType →
      sigTag (readBuf 16 content) = none ∧ extTag name = none) := by
  refine ⟨?_, ?_, ?_, ?_⟩
  · rw [detect_spec]
    rcases hs : sigTag (readBuf 16 content) with _ | t
    · rcases he : extTag name with _ | t <;> simp
    · simp
  · intro t hs
    rw [detect_spec, hs]
  · intro hs
    rw [detect_spec, hs]
  · intro hd
    rw [detect_spec] at hd
    rcases hs : sigTag (readBuf 16 content) with _ | t
    · rcases he : extTag name with _ | t
      · exact ⟨rfl, rfl⟩
      · rw [hs, he] at hd; simp at hd
    · rw [hs] at hd; simp at hd

/-- Witness for C6 at a 1-byte file carrying only the first gzip magic byte
and a ".bz2" name. -/
theorem detect_short_file_witness :
    (([0x1F] : List Nat).length < 16) ∧
    detectArchiveType [0x1F] "a.bz2" = .ok "bz2" := by
  refine ⟨by decide, ?_⟩
  have h := (detect_short_file [0x1F] "a.bz2" (by decide)).2.2.1
  rw [h (by rfl)]
  rfl

/-- Claim C7: the streaming-tar strategy acts per entry type: a directory
entry creates the directory recursively; a regular-file entry creates the
parent directory, then the output file with the entry's bytes copied
verbatim; every other entry type contributes no filesystem action at all,
so removing such an entry from the stream leaves the extraction unchanged. -/
theorem untar_entry_cases :
    (∀ dest (e : TarEntry), e.typeflag = tarTypeDir →
      untarEntryActions dest e = [.mkdirAll (joinPath dest e.name) goModePerm]) ∧
    (∀ dest (e : TarEntry), e.typeflag = tarTypeReg →
      untarEntryActions dest e =
        [.mkdirAll (goDir (joinPath dest e.name)) goModePerm,
         .createFile (joinPath dest e.name) goCreateMode e.content]) ∧
    (∀ dest (e : TarEntry), e.typeflag ≠ tarTypeDir → e.typeflag ≠ tarTypeReg →
      untarEntryActions dest e = []) ∧
    (∀ dest pre (e : TarEntry) post, e.typeflag ≠ tarTypeDir → e.typeflag ≠ tarTypeReg →
      untarActions dest (pre ++ e :: post) = untarActions dest (pre ++ post)) := by
  have hskip : ∀ dest (e : TarEntry), e.typeflag ≠ tarTypeDir → e.typeflag ≠ tarTypeReg →
      untarEntryActions dest e = [] := by
    intro dest e h1 h2
    simp [untarEntryActions, h1, h2]
  refine ⟨?_, ?_, hskip, ?_⟩
  · intro dest e h
    simp [untarEntryActions, h]
  · intro dest e h
    simp [untarEntryActions, h, tarTypeReg, tarTypeDir]
  · intro dest pre e post h1 h2
    simp [untarActions, List.flatMap_append, List.flatMap_cons, hskip dest e h1 h2]

/-- Witness for C7 at one concrete entry of each of the three kinds. -/
theorem untar_entry_cases_witness :
    ((⟨"sub", 0x35, 493, []⟩ : TarEntry).typeflag = tarTypeDir ∧
      untarEntryActions "d" ⟨"sub", 0x35, 493, []⟩ = [.mkdirAll "d/sub" goModePerm]) ∧
    ((⟨"a/b.txt", 0x30, 420, [104, 105]⟩ : TarEntry).typeflag = tarTypeReg ∧
      untarEntryActions "d" ⟨"a/b.txt", 0x30, 420, [104, 105]⟩ =
        [.mkdirAll "d/a" goModePerm, .createFile "d/a/b.txt" goCreateMode [104, 105]]) ∧
    ((⟨"link", 0x32, 420, []⟩ : TarEntry).typeflag ≠ tarTypeDir ∧
      (⟨"link", 0x32, 420, []⟩ : TarEntry).typeflag ≠ tarTypeReg ∧
      untarEntryActions "d" ⟨"link", 0x32, 420, []⟩ = []) := by
  refine ⟨⟨by decide, ?_⟩, ⟨by decide, ?_⟩, by decide, by decide, ?_⟩
  · rw [untar_entry_cases.1 "d" _ (by decide)]
    decide
  · rw [untar_entry_cases.2.1 "d" _ (by decide)]
    decide
  · rw [untar_entry_cases.2.2.1 "d" _ (by decide) (by decide)]

/-- Claim C8: for every supported tag, the single-file strategy redirects
the decompressor's standard output into a newly created file at
`filepath.Join(dest, filepath.Base(src))` — the source's base name, with its
compressed extension kept, under the destination directory. -/
theorem single_file_out_path :
    (∀ src dest typ, typ ∈ (["gz", "bz2", "xz", "zst"] : List String) →
      ∃ c, extractSingleFile src dest typ = .ok ⟨c, joinPath dest (goBase src)⟩) ∧
    extractSingleFile "data.xz" "./out" "xz" =
      .ok ⟨⟨"unxz", ["-k", "-c", "data.xz"]⟩, "out/data.xz"⟩ ∧
    goBase "data.xz" = "data.xz" := by
  refine ⟨?_, by rfl, by rfl⟩
  intro src dest typ h
  fin_cases h <;> exact ⟨_, rfl⟩

/-- Witness for C8 at the spec's Scenario C input. -/
theorem single_file_out_path_witness :
    ("xz" ∈ (["gz", "bz2", "xz", "zst"] : List String)) ∧
    ∃ c, extractSingleFile "data.xz" "./out" "xz" =
      .ok ⟨c, joinPath "./out" (goBase "data.xz")⟩ :=
  ⟨by decide, single_file_out_path.1 "data.xz" "./out" "xz" (by decide)⟩

/-- Claim C9: both container strategies compute each output path as the
plain `filepath.Join` of the destination with the entry's stored name, and
a stored name with dot-dot components produces a path outside the
destination tree — here "out" joined with "../../etc/passwd" yields
"../etc/passwd", which neither equals "out" nor lies under "out/". -/
theorem join_escapes_dest :
    joinPath "out" "../../etc/passwd" = "../etc/passwd" ∧
    untarEntryActions "out" ⟨"../../etc/passwd", 0x30, 420, [104]⟩ =
      [.mkdirAll "../etc" goModePerm, .createFile "../etc/passwd" goCreateMode [104]] ∧
    unzipEntryActions "out" ⟨"../../etc/passwd", false, 420, [104]⟩ =
      [.mkdirAll "../etc" goModePerm, .createFile "../etc/passwd" 420 [104]] ∧
    "out/".data.isPrefixOf "../etc/passwd".data = false ∧
    "../etc/passwd" ≠ "out" := by
  refine ⟨by decide, by decide, by decide, by decide, by decide⟩

/-- Claim C10: the streaming-tar strategy creates every regular file through
`os.Create`, whose fixed 0666 mode ignores the mode stored in the tar
header — the actions are unchanged under any header mode — while the zip
strategy opens each output file with the entry's stored mode. -/
theorem modes_tar_vs_zip :
    (∀ dest (e : TarEntry) m,
      untarEntryActions dest { e with mode := m } = untarEntryActions dest e) ∧
    (∀ dest (e : TarEntry), e.typeflag = tarTypeReg →
      untarEntryActions dest e =
        [.mkdirAll (goDir (joinPath dest e.name)) goModePerm,
         .createFile (joinPath dest e.name) goCreateMode e.content]) ∧
    goCreateMode = 0o666 ∧
    (∀ dest (f : ZipEntry), f.isDir = false →
      unzipEntryActions dest f =
        [.mkdirAll (goDir (joinPath dest f.name)) goModePerm,
         .createFile (joinPath dest f.name) f.mode f.content]) := by
  refine ⟨?_, ?_, rfl, ?_⟩
  · intro dest e m
    cases e
    simp [untarEntryActions]
  · intro dest e h
    simp [untarEntryActions, h, tarTypeReg, tarTypeDir]
  · intro dest f h
    simp [unzipEntryActions, h]

/-- Witness for C10 at a regular tar entry whose header mode differs from
0666 and a zip entry with a stored mode of 0755. -/
theorem modes_tar_vs_zip_witness :
    ((⟨"f.bin", 0x30, 448, [7]⟩ : TarEntry).typeflag = tarTypeReg ∧
      untarEntryActions "z" ⟨"f.bin", 0x30, 448, [7]⟩ =
        [.mkdirAll "z" goModePerm, .createFile "z/f.bin" goCreateMode [7]]) ∧
    ((⟨"g.bin", false, 493, [8]⟩ : ZipEntry).isDir = false ∧
      unzipEntryActions "z" ⟨"g.bin", false, 493, [8]⟩ =
        [.mkdirAll "z" goModePerm, .createFile "z/g.bin" 493 [8]]) := by
  refine ⟨⟨by decide, ?_⟩, ⟨by decide, ?_⟩⟩
  · rw [modes_tar_vs_zip.2.1 "z" _ (by decide)]
    decide
  · rw [modes_tar_vs_zip.2.2.2 "z" _ (by decide)]
    decide

end Unarch
